import Mathlib

/-!
Verification of the hot-reload development server of the Caffeine CLI
(`packages/caffeine-cli/index.js`, `startHotReloadServer` and
`broadcastReload`).

The development server is embedded shallowly:

* Node's POSIX `path.join`, `path.normalize` and `path.extname` are
  modelled as Lean string functions (`pathJoin`, `pathNormalize`,
  `extname`), following the algorithms in Node's `path` module; the
  JavaScript string primitives used by the handler (`startsWith`,
  `endsWith`, `replace` with a string pattern) are modelled on
  `List Char` so that they compute by kernel reduction.
* The request handler of `startHotReloadServer` becomes the pure
  function `handleRequest` (static-file branch) and `handleConnection`
  (adding the `/__hot-reload` subscription branch); the filesystem is
  a partial map `String → Option String`, and the handler additionally
  returns the list of paths it asked the filesystem to read.
* The mutable `hotReloadClients` array becomes a `ServerState` holding a
  list of connection identifiers; `subscribe`, `removeClient` (the
  `close`-event handler) and `broadcastReload` are the operations that
  touch it, each reporting the wire events it writes.
-/

namespace Caffeine

/-! ## String primitives (JavaScript semantics, on `List Char`) -/

/-- Split a character list at `/` separators (Node splits paths on the
separator; empty segments are kept, as `String.split` would). -/
def splitSlash (l : List Char) : List (List Char) :=
  l.foldr
    (fun c acc =>
      if c = '/' then [] :: acc
      else
        match acc with
        | [] => [[c]]
        | cur :: rest => (c :: cur) :: rest)
    [[]]

/-- Join character-list segments with `/` separators. -/
def joinSlash : List (List Char) → List Char
  | [] => []
  | [x] => x
  | x :: xs => x ++ '/' :: joinSlash xs

/-- JavaScript `String.prototype.startsWith`. -/
def strStartsWith (s pre : String) : Bool :=
  pre.data.isPrefixOf s.data

/-- JavaScript `String.prototype.endsWith`. -/
def strEndsWith (s suf : String) : Bool :=
  suf.data.reverse.isPrefixOf s.data.reverse

/-! ## Node `path` model (POSIX) -/

/-- One step of Node's `normalizeString`: fold a path segment onto the
reversed stack of already-emitted segments.  `isAbs` tells whether the
whole path is absolute, in which case `..` at the root is dropped. -/
def normStep (isAbs : Bool) (stack : List (List Char)) (seg : List Char) :
    List (List Char) :=
  if seg = [] ∨ seg = ['.'] then stack
  else if seg = ['.', '.'] then
    match stack with
    | [] => if isAbs then [] else [['.', '.']]
    | top :: rest => if top = ['.', '.'] then seg :: top :: rest else rest
  else seg :: stack

/-- Resolved segments of a path, in order (Node `normalizeString`). -/
def normSegs (l : List Char) (isAbs : Bool) : List (List Char) :=
  ((splitSlash l).foldl (normStep isAbs) []).reverse

/-- Node `path.normalize` for POSIX paths. -/
def pathNormalize (p : String) : String :=
  if p.data = [] then "." else
  let isAbs := p.data.head? = some '/'
  let trail := p.data.getLast? = some '/'
  let body := joinSlash (normSegs p.data isAbs)
  if body = [] then
    (if isAbs then "/" else if trail then "./" else ".")
  else
    String.mk ((if isAbs then '/' :: body else body) ++ (if trail then ['/'] else []))

/-- Node `path.join` for POSIX paths, two arguments: the non-empty
arguments are joined with `/` and the result normalized. -/
def pathJoin (a b : String) : String :=
  match ([a.data, b.data].filter (fun s => ¬ s = [])) with
  | [] => "."
  | parts => pathNormalize (String.mk (joinSlash parts))

/-- Index of the last occurrence of a character in a list, if any. -/
def lastIdxOf (c : Char) : List Char → Option Nat
  | [] => none
  | x :: xs =>
    match lastIdxOf c xs with
    | some i => some (i + 1)
    | none => if x = c then some 0 else none

/-- The part of the path after the last `/`, trailing slashes ignored
(Node's `extname` scan skips trailing separators). -/
def basenamePart (p : String) : List Char :=
  let q := (p.data.reverse.dropWhile (fun c => c = '/')).reverse
  match (splitSlash q).getLast? with
  | some b => b
  | none => q

/-- Node `path.extname` for POSIX paths: the suffix of the basename from
its last dot, except that a leading-dot-only name (`.bashrc`), a name
with no dot, and the name `..` have no extension. -/
def extname (p : String) : String :=
  let base := basenamePart p
  match lastIdxOf '.' base with
  | none => ""
  | some i => if i = 0 ∨ base = ['.', '.'] then "" else String.mk (base.drop i)

/-! ## Static-file branch of the request handler -/

/-- The `mimeTypes` table of `startHotReloadServer`, keyed by extension. -/
def mimeTypes : List (String × String) :=
  [(".html", "text/html"), (".css", "text/css"),
   (".js", "application/javascript"), (".json", "application/json"),
   (".png", "image/png"), (".jpg", "image/jpeg"),
   (".gif", "image/gif"), (".svg", "image/svg+xml")]

/-- `mimeTypes[ext] || "text/plain"`. -/
def mimeLookup (ext : String) : String :=
  match mimeTypes.find? (fun kv => kv.1 = ext) with
  | some kv => kv.2
  | none => "text/plain"

/-- The hot-reload client snippet injected into HTML responses. -/
def hotReloadScript : String :=
  "\n<script>\n(function() \x7b\n  const es = new EventSource(\"/__hot-reload\");\n  es.onmessage = () => \x7b\n    console.log(\"Reloading...\");\n    location.reload();\n  \x7d;\n  es.onerror = () => \x7b\n    es.close();\n    setTimeout(() => window.location.reload(), 1000);\n  \x7d;\n\x7d)();\n</script>"

/-- Index of the first occurrence of `pat` as a sublist of `s`, if any. -/
def firstMatchIdx (s pat : List Char) : Option Nat :=
  match s with
  | [] => if pat = [] then some 0 else none
  | c :: rest =>
    if pat.isPrefixOf (c :: rest) then some 0
    else (firstMatchIdx rest pat).map (fun i => i + 1)

/-- JavaScript `String.prototype.replace` with a string pattern: replace
the first occurrence of `pat` only. -/
def replaceFirst (s pat repl : String) : String :=
  match firstMatchIdx s.data pat.data with
  | none => s
  | some i =>
    String.mk (s.data.take i ++ repl.data ++ s.data.drop (i + pat.data.length))

/-- `data.toString().replace("</body>", hotReloadScript + "</body>")`. -/
def injectHotReload (data : String) : String :=
  replaceFirst data "</body>" (hotReloadScript ++ "</body>")

/-- HTTP responses the server can produce on the static branch. -/
inductive HttpResponse where
  | forbidden
  | notFound
  | ok (contentType : String) (body : String)
  deriving DecidableEq, Repr

/-- The static-file branch of the request callback in
`startHotReloadServer`: resolve the URL against the root, apply the
`startsWith` traversal guard, read the file, inject the reload snippet
into `.html` files, and pick the content type from the extension.
Returns the response together with the list of paths handed to
`fs.readFile`. -/
def handleRequest (root : String) (fs : String → Option String) (url : String) :
    HttpResponse × List String :=
  let filePath := pathJoin root (if url = "/" then "index.html" else url)
  if ¬ strStartsWith filePath root then
    (.forbidden, [])
  else
    match fs filePath with
    | none => (.notFound, [filePath])
    | some data =>
      let data' := if strEndsWith filePath ".html" then injectHotReload data else data
      (.ok (mimeLookup (extname filePath)) data', [filePath])

/-! ## Live-reload connection registry -/

/-- Wire events written on long-lived connections. -/
inductive Event where
  | writeHead (c : Nat) (status : Nat) (headers : List (String × String))
  | register (c : Nat)
  | write (c : Nat) (payload : String)
  deriving DecidableEq, Repr

/-- The headers written by the `/__hot-reload` branch. -/
def sseHeaders : List (String × String) :=
  [("Content-Type", "text/event-stream"),
   ("Cache-Control", "no-cache"),
   ("Connection", "keep-alive")]

/-- The mutable server state: `clients` is the `hotReloadClients` array
(connections stand in as identifiers) and `next` supplies the fresh
identifier of each newly accepted connection (each `res` object handed
to the callback is a fresh value, distinct from every earlier one). -/
structure ServerState where
  clients : List Nat
  next : Nat
  deriving DecidableEq, Repr

/-- The state at server start: `let hotReloadClients = []`. -/
def initState : ServerState := ⟨[], 0⟩

/-- The `/__hot-reload` branch: write the stream headers with status
200, then push the connection onto `hotReloadClients`.  The returned
event list records that the headers go out before the registration. -/
def subscribe (s : ServerState) : ServerState × List Event :=
  (⟨s.clients ++ [s.next], s.next + 1⟩,
   [.writeHead s.next 200 sseHeaders, .register s.next])

/-- The `close`-event handler installed on a subscribed connection:
`hotReloadClients = hotReloadClients.filter((client) => client !== res)`. -/
def removeClient (c : Nat) (s : ServerState) : ServerState :=
  ⟨s.clients.filter (fun x => ¬ x = c), s.next⟩

/-- `broadcastReload()`: write `"data: reload\n\n"` to every client in
`hotReloadClients`.  The loop neither inspects a write's outcome nor
touches the array, so the state comes back unchanged. -/
def broadcastReload (s : ServerState) : ServerState × List Event :=
  (s, s.clients.map (fun c => .write c "data: reload\n\n"))

/-- Result of one HTTP request against the server. -/
inductive ReqResult where
  | stream (events : List Event)
  | reply (r : HttpResponse)
  deriving DecidableEq, Repr

/-- The whole request callback of `startHotReloadServer`: the
`/__hot-reload` branch subscribes the connection and returns early;
every other URL goes through the static-file branch, which leaves the
registry untouched. -/
def handleConnection (root : String) (fs : String → Option String)
    (s : ServerState) (url : String) :
    ServerState × ReqResult × List String :=
  if url = "/__hot-reload" then
    let p := subscribe s
    (p.1, .stream p.2, [])
  else
    let p := handleRequest root fs url
    (s, .reply p.1, p.2)

/-- The registry operations a run of the server performs, in the order
the event loop delivers them. -/
inductive Op where
  | subscribe
  | closeEvt (c : Nat)
  | broadcast
  deriving DecidableEq, Repr

/-- Effect of one registry operation on the server state. -/
def applyOp (s : ServerState) : Op → ServerState
  | .subscribe => (subscribe s).1
  | .closeEvt c => removeClient c s
  | .broadcast => (broadcastReload s).1

/-- State after a sequence of registry operations from server start. -/
def runOps (ops : List Op) : ServerState :=
  ops.foldl applyOp initState

/-- Does the event write on connection `c`? -/
def writesTo (c : Nat) : Event → Bool
  | .write c' _ => c' = c
  | _ => false

/-! ## Predicates taken from the specification's words -/

/-- Modelled from the spec: the resolved absolute path lies outside the
root directory — it is neither the root itself nor below it across a
path-separator boundary. -/
def resolvesOutsideRoot (root p : String) : Prop :=
  ¬ (p = root ∨ strStartsWith p (root ++ "/") = true)

instance (root p : String) : Decidable (resolvesOutsideRoot root p) := by
  unfold resolvesOutsideRoot; infer_instance

/-- Does `pat` occur inside `s`? (used for "contains a traversal
sequence" and for locating `</body>`). -/
def containsSub (s pat : String) : Bool :=
  (firstMatchIdx s.data pat.data).isSome

/-- Modelled from the spec: the fixed extension-to-content-type mapping
of §4.1, with `text/plain` for every unmapped extension. -/
def specContentType (ext : String) : String :=
  if ext = ".html" then "text/html"
  else if ext = ".css" then "text/css"
  else if ext = ".js" then "application/javascript"
  else if ext = ".json" then "application/json"
  else if ext = ".png" then "image/png"
  else if ext = ".jpg" then "image/jpeg"
  else if ext = ".gif" then "image/gif"
  else if ext = ".svg" then "image/svg+xml"
  else "text/plain"

/-- Index of the last occurrence of `pat` as a sublist of `s`, if any
(used to state what "inserted before the last closing body tag" means). -/
def lastMatchIdx (s pat : List Char) : Option Nat :=
  match s with
  | [] => if pat = [] then some 0 else none
  | c :: rest =>
    match lastMatchIdx rest pat with
    | some i => some (i + 1)
    | none => if pat.isPrefixOf (c :: rest) then some 0 else none

/-- Modelled from the spec: the served body with the snippet inserted
immediately before the last occurrence of the closing body tag, the
file unchanged when no such tag occurs. -/
def injectBeforeLast (data : String) : String :=
  match lastMatchIdx data.data "</body>".data with
  | none => data
  | some i =>
    String.mk (data.data.take i ++ hotReloadScript.data ++ data.data.drop i)

/-- Delivered subset of a broadcast's events, for a transport-liveness
map `dead` (a write to a dead peer fails at the transport). -/
def deliveredWrites (dead : Nat → Bool) (evs : List Event) : List Event :=
  evs.filter (fun e => match e with | .write c _ => ¬ dead c | _ => true)

end Caffeine

namespace Caffeine

/-! ## Helper lemmas -/

/-- `firstMatchIdx` returns the least index where `pat` occurs. -/
lemma firstMatchIdx_spec (pat : List Char) :
    ∀ (s : List Char) (i : Nat), firstMatchIdx s pat = some i →
      pat.isPrefixOf (s.drop i) = true ∧
      ∀ j, j < i → pat.isPrefixOf (s.drop j) = false := by
  intro s
  induction s with
  | nil =>
    intro i h
    unfold firstMatchIdx at h
    by_cases hp : pat = ([] : List Char)
    · simp [hp] at h
      subst h
      simp [hp, List.isPrefixOf]
    · simp [hp] at h
  | cons c rest ih =>
    intro i h
    unfold firstMatchIdx at h
    by_cases hp : pat.isPrefixOf (c :: rest) = true
    · simp [hp] at h
      subst h
      exact ⟨hp, fun j hj => absurd hj (Nat.not_lt_zero j)⟩
    · simp [hp] at h
      obtain ⟨i', hi', rfl⟩ := h
      obtain ⟨h1, h2⟩ := ih i' hi'
      refine ⟨h1, ?_⟩
      intro j hj
      cases j with
      | zero => simpa using Bool.eq_false_iff.mpr hp
      | succ k =>
        exact h2 k (Nat.lt_of_succ_lt_succ hj)

/-- If `pat` occurs at index `i`, the tail from `i` splits as `pat`
followed by the tail from `i + pat.length`. -/
lemma drop_of_isPrefixOf {s pat : List Char} {i : Nat}
    (h : pat.isPrefixOf (s.drop i) = true) :
    s.drop i = pat ++ s.drop (i + pat.length) := by
  have hpre : pat <+: s.drop i := List.isPrefixOf_iff_prefix.mp h
  obtain ⟨t, ht⟩ := hpre
  have h2 : s.drop (i + pat.length) = t := by
    rw [← List.drop_drop, ← ht]
    simp
  rw [h2]
  exact ht.symm

/-- Every registered client identifier was issued: it is below `next`. -/
def Issued (s : ServerState) : Prop := ∀ c ∈ s.clients, c < s.next

lemma initState_issued : Issued initState := by
  intro c hc
  simp [initState] at hc

lemma applyOp_issued {s : ServerState} (h : Issued s) (op : Op) :
    Issued (applyOp s op) := by
  cases op with
  | subscribe =>
    intro c hc
    simp [applyOp, subscribe] at hc ⊢
    rcases hc with hc | hc
    · exact Nat.lt_succ_of_lt (h c hc)
    · simp [hc]
  | closeEvt d =>
    intro c hc
    simp only [applyOp, removeClient, List.mem_filter] at hc
    exact h c hc.1
  | broadcast => exact h

lemma applyOp_nodup {s : ServerState} (hb : Issued s) (hn : s.clients.Nodup)
    (op : Op) : (applyOp s op).clients.Nodup := by
  cases op with
  | subscribe =>
    simp only [applyOp, subscribe]
    refine List.Nodup.append hn (List.nodup_singleton _) ?_
    intro a ha hmem
    simp at hmem
    subst hmem
    exact Nat.lt_irrefl _ (hb _ ha)
  | closeEvt d =>
    simp only [applyOp, removeClient]
    exact hn.filter _
  | broadcast => exact hn

/-- The registry invariant holds in every reachable state. -/
lemma runOps_inv (ops : List Op) :
    Issued (runOps ops) ∧ (runOps ops).clients.Nodup := by
  suffices h : ∀ s, Issued s → s.clients.Nodup →
      Issued (ops.foldl applyOp s) ∧ (ops.foldl applyOp s).clients.Nodup by
    exact h initState initState_issued (by simp [initState])
  induction ops with
  | nil => exact fun s h1 h2 => ⟨h1, h2⟩
  | cons op rest ih =>
    intro s h1 h2
    exact ih _ (applyOp_issued h1 op) (applyOp_nodup h1 h2 op)

/-- The source's `mimeTypes` table, with its `|| "text/plain"` default,
computes exactly the mapping the spec lists. -/
lemma mimeLookup_eq_spec (e : String) : mimeLookup e = specContentType e := by
  by_cases h1 : e = ".html"
  · simp [mimeLookup, mimeTypes, specContentType, List.find?, h1]
  by_cases h2 : e = ".css"
  · simp [mimeLookup, mimeTypes, specContentType, List.find?, h1, h2]
  by_cases h3 : e = ".js"
  · simp [mimeLookup, mimeTypes, specContentType, List.find?, h1, h2, h3]
  by_cases h4 : e = ".json"
  · simp [mimeLookup, mimeTypes, specContentType, List.find?, h1, h2, h3, h4]
  by_cases h5 : e = ".png"
  · simp [mimeLookup, mimeTypes, specContentType, List.find?, h1, h2, h3, h4, h5]
  by_cases h6 : e = ".jpg"
  · simp [mimeLookup, mimeTypes, specContentType, List.find?, h1, h2, h3, h4, h5,
      h6]
  by_cases h7 : e = ".gif"
  · simp [mimeLookup, mimeTypes, specContentType, List.find?, h1, h2, h3, h4, h5,
      h6, h7]
  by_cases h8 : e = ".svg"
  · simp [mimeLookup, mimeTypes, specContentType, List.find?, h1, h2, h3, h4, h5,
      h6, h7, h8]
  · have g1 : ¬ ".html" = e := fun h => h1 h.symm
    have g2 : ¬ ".css" = e := fun h => h2 h.symm
    have g3 : ¬ ".js" = e := fun h => h3 h.symm
    have g4 : ¬ ".json" = e := fun h => h4 h.symm
    have g5 : ¬ ".png" = e := fun h => h5 h.symm
    have g6 : ¬ ".jpg" = e := fun h => h6 h.symm
    have g7 : ¬ ".gif" = e := fun h => h7 h.symm
    have g8 : ¬ ".svg" = e := fun h => h8 h.symm
    simp [mimeLookup, mimeTypes, specContentType, List.find?, h1, h2, h3, h4, h5,
      h6, h7, h8, g1, g2, g3, g4, g5, g6, g7, g8]

/-! Sanity checks of the path model against Node behaviour. -/

example : pathJoin "/srv/site" "/../../etc/passwd" = "/etc/passwd" := by decide
example : pathJoin "/srv/site" "/../site-secret/x" = "/srv/site-secret/x" := by decide
example : pathJoin "/srv/site" "index.html" = "/srv/site/index.html" := by decide
example : pathJoin "/srv/site" "/style.css" = "/srv/site/style.css" := by decide
example : pathNormalize "/foo/bar//baz/asdf/quux/.." = "/foo/bar/baz/asdf" := by decide
example : pathNormalize "/" = "/" := by decide
example : extname "/a/b/index.html" = ".html" := by decide
example : extname "/a/.bashrc" = "" := by decide
example : extname "/a/file." = "." := by decide
example : extname "/a/b" = "" := by decide
example : extname ".." = "" := by decide
example : extname "a.b.c" = ".c" := by decide
example : mimeLookup ".css" = "text/css" := by decide
example : mimeLookup ".xyz" = "text/plain" := by decide
example : mimeLookup "" = "text/plain" := by decide

end Caffeine

namespace Caffeine

/-! ## Claims -/

/-- **C1** fails on the code: the request `/../site-old/a` against root
`/srv/site` contains a traversal sequence and resolves to
`/srv/site-old/a`, outside the root, yet the `startsWith` guard lets it
through — the server reads the outside file and serves it with 200,
instead of responding 403 with no filesystem read. -/
theorem c1_traversal_escape_served :
    containsSub "/../site-old/a" ".." = true ∧
    pathJoin "/srv/site" "/../site-old/a" = "/srv/site-old/a" ∧
    resolvesOutsideRoot "/srv/site" "/srv/site-old/a" ∧
    handleRequest "/srv/site"
        (fun p => if p = "/srv/site-old/a" then some "top secret" else none)
        "/../site-old/a" =
      (.ok "text/plain" "top secret", ["/srv/site-old/a"]) := by
  decide

/-- **C2** fails on the code: root `/srv/site`, request
`/../site-secret/x` resolves to the sibling path `/srv/site-secret/x`,
which has the root as a plain string prefix; the naive `startsWith`
check accepts it and the server serves the sibling file instead of
responding 403 — the containment check is not boundary-aware. -/
theorem c2_sibling_bypass_served :
    pathJoin "/srv/site" "/../site-secret/x" = "/srv/site-secret/x" ∧
    strStartsWith "/srv/site-secret/x" "/srv/site" = true ∧
    resolvesOutsideRoot "/srv/site" "/srv/site-secret/x" ∧
    handleRequest "/srv/site"
        (fun p => if p = "/srv/site-secret/x" then some "leak" else none)
        "/../site-secret/x" =
      (.ok "text/plain" "leak", ["/srv/site-secret/x"]) := by
  decide

/-- **C8**: after any sequence of subscribe / close / broadcast
operations the registry holds each connection at most once, and a
subscription writes the HTTP 200 event-stream headers (no caching,
keep-alive) strictly before it registers the connection. -/
theorem c8_registry_unique_and_headers_first (ops : List Op) :
    (runOps ops).clients.Nodup ∧
    ∀ s : ServerState,
      (subscribe s).2 =
        [Event.writeHead s.next 200
           [("Content-Type", "text/event-stream"),
            ("Cache-Control", "no-cache"),
            ("Connection", "keep-alive")],
         Event.register s.next] ∧
      (subscribe s).1.clients = s.clients ++ [s.next] :=
  ⟨(runOps_inv ops).2, fun _ => ⟨rfl, rfl⟩⟩

/-- **C9**: removal from the registry is idempotent: removing an absent
connection leaves the state unchanged (and raises nothing — the handler
is a total function), removing twice equals removing once, and
membership of every other connection is unaffected. -/
theorem c9_remove_idempotent (s : ServerState) (c : Nat) :
    (c ∉ s.clients → removeClient c s = s) ∧
    removeClient c (removeClient c s) = removeClient c s ∧
    ∀ d, ¬ d = c → (d ∈ (removeClient c s).clients ↔ d ∈ s.clients) := by
  refine ⟨?_, ?_, ?_⟩
  · intro hc
    unfold removeClient
    have h : s.clients.filter (fun x => ¬ x = c) = s.clients := by
      apply List.filter_eq_self.mpr
      intro a ha
      simp only [decide_eq_true_eq]
      intro h
      exact hc (h ▸ ha)
    rw [h]
  · unfold removeClient
    congr 1
    apply List.filter_eq_self.mpr
    intro a ha
    exact (List.mem_filter.mp ha).2
  · intro d hd
    unfold removeClient
    simp [List.mem_filter, hd]

/-- Witness for C9 at a concrete registry state. -/
theorem c9_remove_idempotent_witness :
    (5 ∉ (ServerState.mk [1, 2] 3).clients) ∧
    removeClient 5 (ServerState.mk [1, 2] 3) = ServerState.mk [1, 2] 3 ∧
    removeClient 2 (removeClient 2 (ServerState.mk [1, 2] 3)) =
      removeClient 2 (ServerState.mk [1, 2] 3) ∧
    (1 ∈ (removeClient 2 (ServerState.mk [1, 2] 3)).clients ↔
      1 ∈ (ServerState.mk [1, 2] 3).clients) :=
  ⟨by decide, (c9_remove_idempotent ⟨[1, 2], 3⟩ 5).1 (by decide),
    (c9_remove_idempotent ⟨[1, 2], 3⟩ 2).2.1,
    (c9_remove_idempotent ⟨[1, 2], 3⟩ 2).2.2 1 (by decide)⟩

/-- **C4**: from any reachable registry state, one `broadcastReload`
call writes exactly one event, with payload `"data: reload\n\n"`, to
each connection currently in the registry; it writes nothing to any
connection outside the registry (for instance one removed before the
call), and produces no other event. -/
theorem c4_broadcast_fanout (ops : List Op) :
    (∀ c, c ∈ (runOps ops).clients →
      (broadcastReload (runOps ops)).2.count
        (Event.write c "data: reload\n\n") = 1) ∧
    (∀ c p, c ∉ (runOps ops).clients →
      Event.write c p ∉ (broadcastReload (runOps ops)).2) ∧
    (∀ e ∈ (broadcastReload (runOps ops)).2,
      ∃ c ∈ (runOps ops).clients, e = Event.write c "data: reload\n\n") := by
  have hnd := (runOps_inv ops).2
  have hinj : Function.Injective (fun c => Event.write c "data: reload\n\n") := by
    intro a b hab
    injection hab
  refine ⟨?_, ?_, ?_⟩
  · intro c hc
    show ((runOps ops).clients.map (fun c => Event.write c "data: reload\n\n")).count
        (Event.write c "data: reload\n\n") = 1
    rw [List.count_map_of_injective _ _ hinj]
    exact List.count_eq_one_of_mem hnd hc
  · intro c p hc hmem
    simp only [broadcastReload, List.mem_map] at hmem
    obtain ⟨d, hd, he⟩ := hmem
    injection he with h1 h2
    subst h1
    exact hc hd
  · intro e he
    simp only [broadcastReload, List.mem_map] at he
    obtain ⟨d, hd, he⟩ := he
    exact ⟨d, hd, he.symm⟩

/-- Witness for C4: two subscriptions, then connection 0 disconnects;
the broadcast delivers exactly one event to connection 1 and none to the
departed connection 0. -/
theorem c4_broadcast_fanout_witness :
    (1 ∈ (runOps [.subscribe, .subscribe, .closeEvt 0]).clients) ∧
    (broadcastReload (runOps [.subscribe, .subscribe, .closeEvt 0])).2.count
      (Event.write 1 "data: reload\n\n") = 1 ∧
    (0 ∉ (runOps [.subscribe, .subscribe, .closeEvt 0]).clients) ∧
    Event.write 0 "data: reload\n\n" ∉
      (broadcastReload (runOps [.subscribe, .subscribe, .closeEvt 0])).2 :=
  ⟨by decide,
    (c4_broadcast_fanout [.subscribe, .subscribe, .closeEvt 0]).1 1 (by decide),
    by decide,
    (c4_broadcast_fanout [.subscribe, .subscribe, .closeEvt 0]).2.1 0 _ (by decide)⟩

end Caffeine

namespace Caffeine

/-- **C5** fails on the code — counterexample: with connections 0 and 1
registered and the peer of connection 0 gone (so the write to it fails
at the transport), `broadcastReload` returns the registry unchanged:
the failed connection 0 is still registered, not removed by the call. -/
theorem c5_no_prune_counterexample :
    deliveredWrites (fun c => decide (c = 0))
        (broadcastReload (ServerState.mk [0, 1] 2)).2 =
      [Event.write 1 "data: reload\n\n"] ∧
    (broadcastReload (ServerState.mk [0, 1] 2)).1.clients = [0, 1] ∧
    0 ∈ (broadcastReload (ServerState.mk [0, 1] 2)).1.clients := by
  decide

/-- **C5 (amended)**: during a broadcast from any reachable state, a
write failure on one connection does not prevent the reload event from
being delivered to every other live connection, and no error reaches
the caller (the loop ignores write outcomes and returns normally);
however the failed connection is NOT removed by the broadcast — the
registry comes back unchanged — and it is removed only when its close
notification is processed. -/
theorem c5_write_failure_isolated (ops : List Op) (dead : Nat → Bool) (c : Nat)
    (hc : c ∈ (runOps ops).clients) (_hdead : dead c = true) :
    (∀ d, d ∈ (runOps ops).clients → dead d = false →
      (deliveredWrites dead (broadcastReload (runOps ops)).2).count
        (Event.write d "data: reload\n\n") = 1) ∧
    (broadcastReload (runOps ops)).1 = runOps ops ∧
    c ∈ (broadcastReload (runOps ops)).1.clients ∧
    c ∉ (removeClient c (broadcastReload (runOps ops)).1).clients := by
  have hnd := (runOps_inv ops).2
  have hinj : Function.Injective (fun c => Event.write c "data: reload\n\n") := by
    intro a b hab
    injection hab
  refine ⟨?_, rfl, hc, ?_⟩
  · intro d hdcl hlive
    show (deliveredWrites dead ((runOps ops).clients.map
        (fun c => Event.write c "data: reload\n\n"))).count
        (Event.write d "data: reload\n\n") = 1
    unfold deliveredWrites
    rw [List.filter_map, List.count_map_of_injective _ _ hinj]
    apply List.count_eq_one_of_mem (hnd.filter _)
    apply List.mem_filter.mpr
    refine ⟨hdcl, ?_⟩
    simp [Function.comp, hlive]
  · intro hmem
    have h := (List.mem_filter.mp hmem).2
    simp at h

/-- Witness for C5 (amended): two subscribers, the peer of connection 0
gone; connection 1 still gets its single event, the registry is
unchanged and still holds connection 0. -/
theorem c5_write_failure_witness :
    (0 ∈ (runOps [Op.subscribe, Op.subscribe]).clients) ∧
    ((fun c : Nat => decide (c = 0)) 0 = true) ∧
    (deliveredWrites (fun c : Nat => decide (c = 0))
        (broadcastReload (runOps [Op.subscribe, Op.subscribe])).2).count
      (Event.write 1 "data: reload\n\n") = 1 ∧
    (broadcastReload (runOps [Op.subscribe, Op.subscribe])).1 =
      runOps [Op.subscribe, Op.subscribe] ∧
    0 ∈ (broadcastReload (runOps [Op.subscribe, Op.subscribe])).1.clients :=
  have h := c5_write_failure_isolated [Op.subscribe, Op.subscribe]
      (fun c : Nat => decide (c = 0)) 0 (by decide) (by decide)
  ⟨by decide, by decide, h.1 1 (by decide) (by decide), h.2.1, h.2.2.1⟩

set_option maxRecDepth 8192 in
/-- **C3** fails on the code — counterexample: for an HTML file with two
closing body tags the snippet is inserted before the FIRST `</body>`
(JavaScript `replace` with a string pattern replaces the first match),
so the served body differs from the last-occurrence insertion the claim
describes. -/
theorem c3_last_occurrence_counterexample :
    (handleRequest "/srv/site"
        (fun p => if p = "/srv/site/two.html" then some "<p></body><i></body>" else none)
        "/two.html").1 =
      HttpResponse.ok "text/html" (injectHotReload "<p></body><i></body>") ∧
    ¬ injectHotReload "<p></body><i></body>" =
        injectBeforeLast "<p></body><i></body>" := by
  decide

set_option maxRecDepth 8192 in
/-- **C3 (amended)**: every successfully read `.html` file is served
with the snippet inserted exactly once, immediately before the first
occurrence of `</body>` (the least index where it occurs); an HTML file
containing no `</body>` is served byte-identical to the source. -/
theorem c3_injection_before_first_body_tag (root : String)
    (fs : String → Option String) (url data : String)
    (hpref : strStartsWith (pathJoin root (if url = "/" then "index.html" else url))
      root = true)
    (hread : fs (pathJoin root (if url = "/" then "index.html" else url)) = some data)
    (hhtml : strEndsWith (pathJoin root (if url = "/" then "index.html" else url))
      ".html" = true) :
    (handleRequest root fs url).1 =
      HttpResponse.ok
        (mimeLookup (extname (pathJoin root (if url = "/" then "index.html" else url))))
        (injectHotReload data) ∧
    (firstMatchIdx data.data "</body>".data = none → injectHotReload data = data) ∧
    (∀ i, firstMatchIdx data.data "</body>".data = some i →
      injectHotReload data =
        String.mk (data.data.take i ++ hotReloadScript.data ++ data.data.drop i) ∧
      "</body>".data.isPrefixOf (data.data.drop i) = true ∧
      ∀ j, j < i → "</body>".data.isPrefixOf (data.data.drop j) = false) := by
  refine ⟨?_, ?_, ?_⟩
  · unfold handleRequest
    simp [hpref, hread, hhtml]
  · intro h
    simp [injectHotReload, replaceFirst, h]
  · intro i h
    have h1 := (firstMatchIdx_spec _ _ _ h).1
    have h2 := (firstMatchIdx_spec _ _ _ h).2
    refine ⟨?_, h1, h2⟩
    have hsplit := drop_of_isPrefixOf h1
    have hscript : (hotReloadScript ++ "</body>").data =
        hotReloadScript.data ++ "</body>".data := rfl
    have hlist : data.data.take i ++ (hotReloadScript ++ "</body>").data ++
        data.data.drop (i + "</body>".data.length) =
        data.data.take i ++ hotReloadScript.data ++ data.data.drop i := by
      rw [hsplit, hscript]
      simp [List.append_assoc]
    simp only [injectHotReload, replaceFirst, h]
    exact congrArg String.mk hlist

set_option maxRecDepth 8192 in
/-- Witness for C3 (amended): serving `/` from a root whose `index.html`
has one closing body tag injects the snippet there. -/
theorem c3_injection_witness :
    (handleRequest "/srv/site"
        (fun p => if p = "/srv/site/index.html" then some "<body>hi</body>" else none)
        "/").1 =
      HttpResponse.ok
        (mimeLookup (extname (pathJoin "/srv/site"
          (if "/" = "/" then "index.html" else "/"))))
        (injectHotReload "<body>hi</body>") :=
  (c3_injection_before_first_body_tag "/srv/site"
      (fun p => if p = "/srv/site/index.html" then some "<body>hi</body>" else none)
      "/" "<body>hi</body>" (by decide) (by decide) (by decide)).1

end Caffeine

namespace Caffeine

/-- **C6**: the content type of every served file is determined solely
by the resolved path's extension: the source's `mimeTypes` table with
its `text/plain` fallback agrees with the spec's fixed mapping on every
extension, and a successful read responds with exactly that content
type. -/
theorem c6_content_type_mapping (root : String) (fs : String → Option String)
    (url data : String)
    (hpref : strStartsWith (pathJoin root (if url = "/" then "index.html" else url))
      root = true)
    (hread : fs (pathJoin root (if url = "/" then "index.html" else url)) = some data) :
    (∃ body, (handleRequest root fs url).1 =
      HttpResponse.ok
        (specContentType (extname (pathJoin root (if url = "/" then "index.html" else url))))
        body) ∧
    ∀ e, mimeLookup e = specContentType e := by
  refine ⟨?_, mimeLookup_eq_spec⟩
  refine ⟨if strEndsWith (pathJoin root (if url = "/" then "index.html" else url))
      ".html" = true then injectHotReload data else data, ?_⟩
  unfold handleRequest
  simp [hpref, hread, mimeLookup_eq_spec]

/-- Witness for C6: `/style.css` served from the root gets content type
`text/css` per the mapping. -/
theorem c6_content_type_witness :
    ∃ body, (handleRequest "/srv/site"
        (fun p => if p = "/srv/site/style.css" then some "x" else none)
        "/style.css").1 =
      HttpResponse.ok
        (specContentType (extname (pathJoin "/srv/site"
          (if "/style.css" = "/" then "index.html" else "/style.css")))) body :=
  (c6_content_type_mapping "/srv/site"
      (fun p => if p = "/srv/site/style.css" then some "x" else none)
      "/style.css" "x" (by decide) (by decide)).1

/-- **C7**: the URL `/` resolves to `index.html` under the root and any
other URL joins onto the root; when the resolved file cannot be read
the server replies 404 Not Found, the connection registry is untouched,
and the only filesystem access is the failed read of the resolved path. -/
theorem c7_slash_resolution_and_404 (root : String) (fs : String → Option String)
    (s : ServerState) (url : String)
    (hurl : ¬ url = "/__hot-reload")
    (hpref : strStartsWith (pathJoin root (if url = "/" then "index.html" else url))
      root = true)
    (hmiss : fs (pathJoin root (if url = "/" then "index.html" else url)) = none) :
    handleConnection root fs s url =
      (s, .reply .notFound,
        [pathJoin root (if url = "/" then "index.html" else url)]) ∧
    (url = "/" →
      handleConnection root fs s url =
        (s, .reply .notFound, [pathJoin root "index.html"])) := by
  have h1 : handleConnection root fs s url =
      (s, .reply .notFound,
        [pathJoin root (if url = "/" then "index.html" else url)]) := by
    unfold handleConnection handleRequest
    simp [hurl, hpref, hmiss]
  refine ⟨h1, ?_⟩
  intro hu
  subst hu
  simpa using h1

/-- Witness for C7: `/` against an empty filesystem gives 404 and the
registry state is returned unchanged. -/
theorem c7_slash_resolution_witness :
    handleConnection "/srv/site" (fun _ => none) (ServerState.mk [7] 9) "/" =
      (ServerState.mk [7] 9, .reply .notFound,
        [pathJoin "/srv/site" (if "/" = "/" then "index.html" else "/")]) :=
  (c7_slash_resolution_and_404 "/srv/site" (fun _ => none) ⟨[7], 9⟩ "/"
    (by decide) (by decide) rfl).1

/-- **C10**: a URL carrying a query string is joined verbatim onto the
root — the literal `?` and query text are part of the looked-up file
name — and when no file of that literal name exists the server replies
404 with no other filesystem access, even if the query-stripped file
exists. -/
theorem c10_query_joined_verbatim (root : String) (fs : String → Option String)
    (s : ServerState) (url : String)
    (_hq : containsSub url "?" = true)
    (hurl : ¬ url = "/__hot-reload") (hroot : ¬ url = "/")
    (hpref : strStartsWith (pathJoin root url) root = true)
    (hmiss : fs (pathJoin root url) = none) :
    handleConnection root fs s url = (s, .reply .notFound, [pathJoin root url]) := by
  unfold handleConnection handleRequest
  simp [hurl, hroot, hpref, hmiss]

/-- Witness for C10: `/style.css?v=1` is looked up literally; the
query-stripped `/srv/site/style.css` exists in the filesystem but is
not served — the response is 404. -/
theorem c10_query_joined_verbatim_witness :
    containsSub "/style.css?v=1" "?" = true ∧
    (fun p => if p = "/srv/site/style.css" then some "content" else none)
        (pathJoin "/srv/site" "/style.css?v=1") = none ∧
    handleConnection "/srv/site"
        (fun p => if p = "/srv/site/style.css" then some "content" else none)
        (ServerState.mk [] 0) "/style.css?v=1" =
      (ServerState.mk [] 0, .reply .notFound,
        [pathJoin "/srv/site" "/style.css?v=1"]) :=
  ⟨by decide, by decide,
    c10_query_joined_verbatim "/srv/site"
      (fun p => if p = "/srv/site/style.css" then some "content" else none)
      ⟨[], 0⟩ "/style.css?v=1"
      (by decide) (by decide) (by decide) (by decide) (by decide)⟩

end Caffeine
